import Mathlib

/-!
Verification development for the imrabo CLI inference daemon.

This file gives a shallow embedding, in Lean 4, of the core components of
the repository:

* `KernelExecutionService` (src/imrabo/kernel/execution.py) — the request
  orchestration state machine, modelled as an explicit state-passing
  function over an abstract engine/resolver behaviour;
* `FileSystemArtifactResolver` (src/imrabo/adapters/storage_fs.py) — the
  registry lookup, checksum verification and atomic download logic,
  modelled over an association-list disk keyed by (model directory,
  filename) whose values are the SHA-256 of the stored bytes;
* the delta extraction loop of `RuntimeClient.run_prompt`
  (src/imrabo/cli/client.py), modelled at the granularity of parsed
  snapshot records, with text as `List Char` (Python `str` operations act
  on code points, exactly like `List Char` operations);
* `LlamaCppProcessAdapter._wait_for_ready`
  (src/imrabo/adapters/llama_cpp/process.py), modelled over a trace of
  per-attempt health-probe outcomes;
* `stop_runtime` and the PID-file helpers (src/imrabo/cli/core.py),
  modelled over an abstract PID-file state and per-call signal outcomes.

Theorems at the end settle the frozen behavioural claims about these
components.
-/

namespace Imrabo

/-! ## Kernel data model (src/imrabo/kernel/contracts/contracts.py) -/

/-- The `output` payload of an `ExecutionResult`.  The Python code stores a
dict; the kernel only ever builds one of three shapes:
`{"message": s}`, `{"error": s}` or `{"content": s, "stop": b}`. -/
inductive Output where
  | msg (s : String)
  | err (s : String)
  | chunk (content : String) (stop : Bool)
deriving DecidableEq

/-- `ExecutionResult` dataclass: `request_id`, `status`, `output`
(`metrics` is carried along in Python but never inspected by the kernel
logic the claims are about, so it is omitted here). -/
structure ExecutionResult where
  request_id : String
  status : String
  output : Output
deriving DecidableEq

/-- `ExecutionRequest` dataclass, restricted to the fields the kernel
reads (`input`, `constraints`, `capabilities` are passed through opaquely). -/
structure ExecutionRequest where
  request_id : String
  artifact_ref : String
deriving DecidableEq

/-- Location of an artifact on disk, as produced by
`FileSystemArtifactResolver`: either the model directory itself or a file
inside it.  (In Python this is a `Path`; only its shape matters here.) -/
inductive Loc where
  | dirLoc (model_id : String)
  | fileLoc (model_id : String) (filename : String)
deriving DecidableEq

/-- `ArtifactHandle` dataclass (src/imrabo/kernel/artifacts.py):
`ref`, `is_available`, `location` (`metadata` is an arbitrary dict that no
claim inspects, so it is omitted). -/
structure ArtifactHandle where
  ref : String
  is_available : Bool
  location : Option Loc
deriving DecidableEq

/-! ## KernelExecutionService (src/imrabo/kernel/execution.py)

The service is a generator threading mutable state
(`_is_engine_loaded`, `_current_handle`, and the `loaded_artifact_ref`
attribute it sets on the engine adapter) through adapter calls.  The
adapter/resolver pair is abstracted as an `EngineBehavior`: each call
either returns normally or raises (an `Except.error` carrying `str(e)`).
Call accounting (load/execute/unload call counts, and the effect of
`unload` on `loaded_artifact_ref`) follows the repository's own reference
adapter semantics (`MockEngineAdapter` in src/tests/kernel/mocks.py,
mirroring `LlamaCppProcessAdapter`): `load` records the call before
raising; `unload` always records the call and clears the loaded ref. -/

/-- Abstract behaviour of the resolver and engine adapter seen by one
`KernelExecutionService`.  `execute_stream` returns the results the
adapter generator yields, paired with `some msg` if it then raises. -/
structure EngineBehavior where
  ensure_available : String → Except String ArtifactHandle
  load_result : ArtifactHandle → Except String Unit
  execute_stream : ExecutionRequest → List ExecutionResult × Option String

/-- Mutable state of a `KernelExecutionService` together with the
call-recording state of its engine adapter. -/
structure KernelState where
  is_engine_loaded : Bool
  current_handle : Option ArtifactHandle
  loaded_artifact_ref : Option String
  load_calls : Nat
  execute_calls : Nat
  unload_calls : Nat
deriving DecidableEq

/-- Fresh service state (`__init__`). -/
def initialKernelState : KernelState :=
  { is_engine_loaded := false
    current_handle := none
    loaded_artifact_ref := none
    load_calls := 0
    execute_calls := 0
    unload_calls := 0 }

/-- Effect of `engine_adapter.unload()`: the call is recorded and the
adapter's `loaded_artifact_ref` is cleared. -/
def adapterUnload (st : KernelState) : KernelState :=
  { st with unload_calls := st.unload_calls + 1, loaded_artifact_ref := none }

/-- The kernel's terminal `error` result: `{"error": str(e)}`. -/
def errorResult (rid msg : String) : ExecutionResult :=
  ⟨rid, "error", .err msg⟩

/-- Steps 3–4 of `KernelExecutionService.execute`: emit `executing`,
forward every adapter result unchanged, then either append the final
`completed` summary (normal termination of the adapter stream) or, when
the adapter raises, append the single `error` result and unload. -/
def runExecution (env : EngineBehavior) (req : ExecutionRequest) (rid : String)
    (pre : List ExecutionResult) (st : KernelState) :
    List ExecutionResult × KernelState :=
  let st := { st with execute_calls := st.execute_calls + 1 }
  let executing : ExecutionResult := ⟨rid, "executing", .msg "Executing request"⟩
  let items := (env.execute_stream req).1
  match (env.execute_stream req).2 with
  | some e =>
      (pre ++ executing :: items ++ [errorResult rid e],
       adapterUnload { st with is_engine_loaded := false })
  | none =>
      (pre ++ executing :: items ++ [⟨rid, "completed", .msg "Execution finished"⟩], st)

/-- `KernelExecutionService.execute` (lines 28–88): resolve, conditionally
load, execute, complete; on any raised exception emit one `error` result,
call `unload()` and clear `_is_engine_loaded`. -/
def kernelExecute (env : EngineBehavior) (req : ExecutionRequest) (st : KernelState) :
    List ExecutionResult × KernelState :=
  let rid := req.request_id
  let resolving : ExecutionResult :=
    ⟨rid, "resolving", .msg ("Resolving artifact: " ++ req.artifact_ref)⟩
  match env.ensure_available req.artifact_ref with
  | .error e =>
      ([resolving, errorResult rid e],
       adapterUnload { st with is_engine_loaded := false })
  | .ok handle =>
      let st := { st with current_handle := some handle }
      if !handle.is_available then
        ([resolving, errorResult rid ("Artifact not available: " ++ req.artifact_ref)],
         adapterUnload { st with is_engine_loaded := false })
      else
        let refMismatch :=
          match st.loaded_artifact_ref with
          | some r => handle.ref != r
          | none => true
        if !st.is_engine_loaded || refMismatch then
          let loading : ExecutionResult :=
            ⟨rid, "loading_engine", .msg ("Loading engine for artifact: " ++ handle.ref)⟩
          let st := { st with load_calls := st.load_calls + 1 }
          match env.load_result handle with
          | .error e =>
              ([resolving, loading, errorResult rid e],
               adapterUnload { st with is_engine_loaded := false })
          | .ok _ =>
              let st := { st with is_engine_loaded := true,
                                  loaded_artifact_ref := some handle.ref }
              runExecution env req rid [resolving, loading] st
        else
          runExecution env req rid [resolving] st

/-- `KernelExecutionService.unload_engine` (lines 90–96). -/
def unloadEngine (st : KernelState) : KernelState :=
  if st.is_engine_loaded then
    { adapterUnload st with
        is_engine_loaded := false
        current_handle := none
        loaded_artifact_ref := none }
  else st

/-- Run a sequence of requests through one service, threading its state. -/
def runRequests (env : EngineBehavior) (reqs : List ExecutionRequest)
    (st : KernelState) : KernelState :=
  match reqs with
  | [] => st
  | r :: rs => runRequests env rs (kernelExecute env r st).2

/-- A result is terminal when its status is `completed` or `error`. -/
def isTerminal (r : ExecutionResult) : Bool :=
  r.status == "completed" || r.status == "error"

/-! ## FileSystemArtifactResolver (src/imrabo/adapters/storage_fs.py)

The disk inside `models_dir` is an association list from
(model directory name, filename) to the SHA-256 hex digest of the bytes
stored there; `_calculate_sha256` of a present file returns exactly that
value.  The network is abstracted as `NetBehavior.downloadHash`:
`none` means the HTTP request (or the write) raised, `some h` means bytes
hashing to `h` were fetched. -/

/-- One entry of a variant's `files` array in the JSON registry. -/
structure FileInfo where
  filename : String
  url : String
  sha256 : String
deriving DecidableEq

/-- A variant in the registry: `{ id, files }`. -/
structure Variant where
  id : String
  files : List FileInfo
deriving DecidableEq

/-- A model in the registry: `{ id, variants }` (other keys such as
`min_ram_gb` are never read by the resolver logic under scrutiny). -/
structure ModelEntry where
  id : String
  variants : List Variant
deriving DecidableEq

/-- The registry's `models` mapping, as an association list. -/
abbrev Registry := List (String × ModelEntry)

/-- The merged model+variant configuration `_get_model_config` builds
(`config["model_id"]` plus the variant's `files`). -/
structure ConfigT where
  model_id : String
  files : List FileInfo
deriving DecidableEq

/-- On-disk state of the models directory: (model dir, filename) ↦ SHA-256
of the stored bytes. -/
abbrev Disk := List ((String × String) × String)

/-- File-existence / hash lookup. -/
def dLookup : Disk → String × String → Option String
  | [], _ => none
  | e :: d, p => if e.1 = p then some e.2 else dLookup d p

/-- `Path.unlink` (also a no-op when the file is absent, as in the
`finally` block of `_download_file`). -/
def dErase : Disk → String × String → Disk
  | [], _ => []
  | e :: d, p => if e.1 = p then dErase d p else e :: dErase d p

/-- Write (or overwrite) a file. -/
def dInsert (d : Disk) (p : String × String) (v : String) : Disk :=
  (p, v) :: dErase d p

/-- Python `str.split(sep)` for a one-character separator, at code-point
granularity (`"".split(sep)` is `[""]`, separators at the ends produce
empty fields). -/
def splitOnChar (c : Char) : List Char → List (List Char)
  | [] => [[]]
  | a :: rest =>
    match splitOnChar c rest with
    | [] => [[]]
    | s :: ss => if a = c then [] :: s :: ss else (a :: s) :: ss

/-- Python `parts[i].split(":")[1]` guarded by `":" in parts[i]`: the text
between the first and second colon (`none` when there is no colon). -/
def pyColonSecond (s : List Char) : Option (List Char) :=
  (splitOnChar ':' s).get? 1

/-- `FileSystemArtifactResolver._get_model_config` (lines 35–57): parse
`"model:<id>/variant:<id>"`, look the model up in the registry, pick the
matching variant (or the first one when no variant id was given — Python
truthiness also sends an empty variant id to the first variant), and merge
into a config. -/
def getModelConfig (reg : Registry) (ref : String) : Option ConfigT :=
  let parts := splitOnChar '/' ref.data
  let model_id := (parts.get? 0).bind pyColonSecond
  let variant_id := (parts.get? 1).bind pyColonSecond
  match model_id.bind
      (fun mid => (reg.find? (fun e => e.1.data == mid)).map (fun e => e.2)) with
  | none => none
  | some model =>
    match model.variants with
    | [] => none
    | v0 :: _ =>
      let variant? :=
        match variant_id with
        | none => some v0
        | some vid =>
            if vid == [] then some v0
            else model.variants.find? (fun v => v.id.data == vid)
      match variant? with
      | none => none
      | some v => some { model_id := model.id, files := v.files }

/-- The `main_gguf` selection in `resolve`: the first declared file whose
name ends in `".gguf"` (Python `str.endswith` at code-point granularity). -/
def firstGguf (files : List FileInfo) : Option String :=
  (files.find? (fun f => List.isSuffixOf ".gguf".data f.filename.data)).map
    (fun f => f.filename)

/-- `FileSystemArtifactResolver.resolve` (lines 89–100): a pure local
lookup — no network parameter at all, and the disk is read, never
written.  Availability is decided solely by the existence of the first
declared `.gguf` file. -/
def fsResolve (reg : Registry) (disk : Disk) (ref : String) : ArtifactHandle :=
  match getModelConfig reg ref with
  | none => ⟨ref, false, none⟩
  | some cfg =>
    match firstGguf cfg.files with
    | none => ⟨ref, false, some (.dirLoc cfg.model_id)⟩
    | some fn =>
      if (dLookup disk (cfg.model_id, fn)).isSome then
        ⟨ref, true, some (.fileLoc cfg.model_id fn)⟩
      else
        ⟨ref, false, some (.dirLoc cfg.model_id)⟩

/-- Network behaviour: hash of the bytes a GET of the url streams back,
or `none` when the transfer raises. -/
structure NetBehavior where
  downloadHash : String → Option String

/-- `FileSystemArtifactResolver._download_file` (lines 66–87): stream the
bytes to the sibling `<name>.tmp` path, hash them, and atomically
`replace` onto the target only when the hash matches; the `finally` block
unlinks the temp file whenever it still exists (checksum mismatch,
transfer failure, or pre-existing stale temp). -/
def downloadFile (net : NetBehavior) (disk : Disk) (url : String)
    (target : String × String) (expected : String) : Bool × Disk :=
  let temp : String × String := (target.1, target.2 ++ ".tmp")
  match net.downloadHash url with
  | none => (false, dErase disk temp)
  | some h =>
    let disk := dInsert disk temp h
    if h != expected then
      (false, dErase disk temp)
    else
      (true, dErase (dInsert disk target h) temp)

/-- Errors raised by `ensure_available`. -/
inductive PyErr where
  | valueError (msg : String)
  | runtimeError (msg : String)
deriving DecidableEq

/-- Decidable equality for `Except` values, so that concrete runs of the
embedding can be checked by `decide`. -/
instance {ε α : Type} [DecidableEq ε] [DecidableEq α] :
    DecidableEq (Except ε α) := fun a b =>
  match a, b with
  | .error x, .error y =>
      if h : x = y then .isTrue (by rw [h])
      else .isFalse (fun hc => h (by injection hc))
  | .ok x, .ok y =>
      if h : x = y then .isTrue (by rw [h])
      else .isFalse (fun hc => h (by injection hc))
  | .error _, .ok _ => .isFalse (fun hc => Except.noConfusion hc)
  | .ok _, .error _ => .isFalse (fun hc => Except.noConfusion hc)

/-- The skip condition of the download loop: the file exists and its
on-disk hash equals the declared one
(`if target_path.exists(): if self._calculate_sha256(...) == ...`). -/
def fileValid (disk : Disk) (target : String × String) (sha : String) : Bool :=
  match dLookup disk target with
  | some h => h == sha
  | none => false

/-- The per-file loop of `ensure_available` (lines 114–124): skip a file
that exists with the declared hash, otherwise download it; a failed
download raises `RuntimeError`. -/
def ensureFiles (net : NetBehavior) (model_id : String) :
    List FileInfo → Disk → Except PyErr Unit × Disk
  | [], disk => (.ok (), disk)
  | f :: fs, disk =>
    if fileValid disk (model_id, f.filename) f.sha256 then
      ensureFiles net model_id fs disk
    else
      let r := downloadFile net disk f.url (model_id, f.filename) f.sha256
      if r.1 then
        ensureFiles net model_id fs r.2
      else
        (.error (.runtimeError ("Failed to download and verify " ++ f.filename)), r.2)

/-- `FileSystemArtifactResolver.ensure_available` (lines 102–126): return
the resolved handle untouched when `resolve` already reports it
available; otherwise walk the declared files, downloading the missing or
hash-mismatched ones, and re-resolve. -/
def ensureAvailable (reg : Registry) (net : NetBehavior) (disk : Disk)
    (ref : String) : Except PyErr ArtifactHandle × Disk :=
  let handle := fsResolve reg disk ref
  if handle.is_available then
    (.ok handle, disk)
  else
    match getModelConfig reg ref with
    | none => (.error (.valueError ("Could not resolve config for artifact: " ++ ref)), disk)
    | some cfg =>
      let r := ensureFiles net cfg.model_id cfg.files disk
      match r.1 with
      | .error e => (.error e, r.2)
      | .ok _ => (.ok (fsResolve reg r.2 ref), r.2)

/-! ## RuntimeClient.run_prompt delta extraction (src/imrabo/cli/client.py)

The claims address the per-snapshot delta logic (lines 136–152): each
parsed SSE record carries a cumulative `content` snapshot and a `stop`
flag.  Text is `List Char`; Python `str` operations used by the code
(`startswith`, `len`, slicing `[n:]`) coincide with `List.isPrefixOf`,
`List.length` and `List.drop` at code-point granularity. -/

/-- One parsed `data:` record: `{"content": ..., "stop": ...}`. -/
structure SnapshotRecord where
  content : List Char
  stop : Bool
deriving DecidableEq

/-- The body of the record loop in `run_prompt`: compute the delta from
`last_full_content` (suffix when the snapshot extends it, the whole
snapshot otherwise), yield it when non-empty (also advancing
`last_full_content`), and end the stream the moment a record carries the
stop flag. -/
def processRecords : List SnapshotRecord → List Char → List (List Char)
  | [], _ => []
  | r :: rs, last =>
    let delta :=
      if last.isPrefixOf r.content then r.content.drop last.length
      else r.content
    let emitted := if delta ≠ [] then [delta] else []
    let last1 := if delta ≠ [] then r.content else last
    if r.stop then emitted else emitted ++ processRecords rs last1

/-- A record list is a monotone snapshot sequence from `prev` when every
record up to and including the first stopped one extends the text seen so
far (the spec's prefix-extension chain `s1 ⊆ s2 ⊆ s3 ...`). -/
def isMonotoneFrom (prev : List Char) : List SnapshotRecord → Bool
  | [] => true
  | r :: rs => prev.isPrefixOf r.content && (r.stop || isMonotoneFrom r.content rs)

/-- The records `run_prompt` actually consumes: everything up to and
including the first record whose stop flag is set. -/
def takeUntilStop : List SnapshotRecord → List SnapshotRecord
  | [] => []
  | r :: rs => if r.stop then [r] else r :: takeUntilStop rs

/-- The final snapshot of a record sequence: the content of the last
consumed record, or the starting text when no record is consumed. -/
def finalSnapshot (prev : List Char) (rs : List SnapshotRecord) : List Char :=
  match (takeUntilStop rs).getLast? with
  | some r => r.content
  | none => prev

/-! ## LlamaCppProcessAdapter._wait_for_ready
(src/imrabo/adapters/llama_cpp/process.py, lines 330–350)

Each of the up-to-30 attempts observes one of five outcomes.  Three are
caught by the `except (ConnectionError, HTTPError, RuntimeError)` clause
and retried after a 1-second sleep: the spawned process already exited
(`poll` is not `None` — the body raises `RuntimeError`), or the health
GET / `raise_for_status` raised `ConnectionError`/`HTTPError`.  A 200
answer whose `status` is not `"ok"` raises nothing and is retried
immediately, with no sleep.  A 200 answer with `status == "ok"` makes
the engine ready.  Finally, the probe body can raise an exception the
`except` clause does not catch — `requests.get(..., timeout=1)` can
raise `requests.exceptions.ReadTimeout` (a `Timeout`, not a
`ConnectionError`), and `response.json()` can raise a JSON decode
error — in which case the exception escapes the loop: it propagates to
the caller with no `unload()` teardown and `server_ready` still false.
The engine's actual ability to serve an inference request is part of the
environment (`canServe`) so that theorems can ask whether readiness ever
consults it. -/

/-- Outcome of one readiness attempt.  `procDead`, `connErr` and
`healthNotOk` are retried; `uncaught` is an exception outside
`(ConnectionError, HTTPError, RuntimeError)` (e.g. a requests
`ReadTimeout` or a JSON decode error) that escapes the loop. -/
inductive ProbeOutcome where
  | procDead
  | connErr
  | healthOk
  | healthNotOk
  | uncaught
deriving DecidableEq

/-- Environment of one `_wait_for_ready` run: the health-probe outcome of
each attempt, and whether an inference request issued at that attempt
would succeed (the code never reads `canServe`; the field exists so its
irrelevance is statable). -/
structure ReadyEnv where
  health : Nat → ProbeOutcome
  canServe : Nat → Bool

/-- What one run of the retry loop produces: readiness at some attempt,
an uncaught exception escaping from some attempt, or an exhausted
budget. -/
inductive WaitOutcome where
  | ready (attempt : Nat)
  | escaped (attempt : Nat)
  | exhausted
deriving DecidableEq

/-- The retry loop: scan attempts `i, i+1, ...` with the given remaining
budget.  A health-ok attempt makes the engine ready; an uncaught
exception aborts the loop at that attempt; every caught failure or
non-ok answer consumes one attempt and retries. -/
def waitLoop (env : ReadyEnv) : Nat → Nat → WaitOutcome
  | 0, _ => .exhausted
  | fuel + 1, i =>
    match env.health i with
    | .healthOk => .ready i
    | .uncaught => .escaped i
    | _ => waitLoop env fuel (i + 1)

/-- Result of `_wait_for_ready` as observed by its caller. -/
inductive ReadyResult where
  | ready (attempt : Nat)
  | notReady (e : PyErr)
  | escaped (attempt : Nat)
deriving DecidableEq

/-- `_wait_for_ready`: on success the index of the succeeding attempt
with `server_ready := true`; after 30 attempts that all failed with
*caught* outcomes, `unload()` followed by
`RuntimeError("llama-server failed to become ready.")`; on an uncaught
exception, that exception propagates with **no** `unload()` call and
`server_ready` still false.  The triple is
(result, `unload` called, `server_ready`). -/
def waitForReady (env : ReadyEnv) : ReadyResult × Bool × Bool :=
  match waitLoop env 30 0 with
  | .ready i => (.ready i, false, true)
  | .escaped i => (.escaped i, false, false)
  | .exhausted =>
      (.notReady (.runtimeError "llama-server failed to become ready."), true, false)

/-! ## stop_runtime and the PID-file helpers (src/imrabo/cli/core.py)

The PID record is the content of one on-disk file; the operating system
is abstracted per call: whether the cooperative `POST /shutdown` call
succeeds, and what each `os.kill` in the fallback path does (succeeds,
raises `ProcessLookupError`, or raises some other exception). -/

/-- Outcome of one `os.kill` call. -/
inductive KillOutcome where
  | ok
  | notFound
  | unexpected
deriving DecidableEq

/-- Environment of one `stop_runtime` call. -/
structure StopEnv where
  shutdownOk : Bool
  sigterm : KillOutcome
  aliveCheck : KillOutcome
  sigkill : KillOutcome

/-- The filesystem state `stop_runtime` touches: the PID file's content,
when present. -/
structure DaemonFS where
  pidFile : Option String
deriving DecidableEq

/-- Python `str.strip()`: remove leading and trailing whitespace, at
code-point granularity. -/
def pyStrip (l : List Char) : List Char :=
  ((l.dropWhile Char.isWhitespace).reverse.dropWhile Char.isWhitespace).reverse

/-- Value of a non-empty all-digit string (`none` otherwise). -/
def digitsVal : List Char → Option Nat
  | [] => none
  | ds =>
    if ds.all Char.isDigit then
      some (ds.foldl (fun acc c => acc * 10 + (c.toNat - 48)) 0)
    else none

/-- Python `int(s.strip())` on a decimal literal with optional sign:
`none` models the `ValueError` the call raises on anything else. -/
def pyInt (l : List Char) : Option Int :=
  match pyStrip l with
  | '-' :: ds => (digitsVal ds).map (fun n => -(n : Int))
  | '+' :: ds => (digitsVal ds).map (fun n => (n : Int))
  | ds => (digitsVal ds).map (fun n => (n : Int))

/-- `get_saved_pid` (lines 209–219): `none` when the file is absent;
parse `int(content.strip())`, deleting the file and returning `none` when
parsing raises. -/
def getSavedPid (fs : DaemonFS) : Option Int × DaemonFS :=
  match fs.pidFile with
  | none => (none, fs)
  | some content =>
    match pyInt content.data with
    | some n => (some n, fs)
    | none => (none, { pidFile := none })

/-- `remove_pid_file` (lines 222–226). -/
def removePidFile (_fs : DaemonFS) : DaemonFS :=
  { pidFile := none }

/-- The `try/except/finally` signalling block of `stop_runtime`
(lines 303–321): SIGTERM, liveness check via signal 0, SIGKILL;
`ProcessLookupError` anywhere means "already stopped" (success), any
other exception means failure; the `finally` clause removes the PID file
on every path. -/
def signalSequence (env : StopEnv) (fs : DaemonFS) : Bool × DaemonFS :=
  let result :=
    match env.sigterm with
    | .notFound => true
    | .unexpected => false
    | .ok =>
      match env.aliveCheck with
      | .notFound => true
      | .unexpected => false
      | .ok =>
        match env.sigkill with
        | .notFound => true
        | .unexpected => false
        | .ok => true
  (result, removePidFile fs)

/-- `stop_runtime` (lines 281–321): cooperative API shutdown first
(removing the PID file and succeeding when it works); otherwise read the
PID record — a missing, unparsable, or zero value (`if not pid:`, which
is also taken by `0`) is "not running" (success) — and finally fall back
to the signalling sequence. -/
def stopRuntime (env : StopEnv) (fs : DaemonFS) : Bool × DaemonFS :=
  if env.shutdownOk then
    (true, removePidFile fs)
  else
    match getSavedPid fs with
    | (none, fs1) => (true, fs1)
    | (some pid, fs1) =>
      if pid == 0 then (true, fs1)
      else signalSequence env fs1

/-! ## Concrete environments used by the claim theorems -/

/-- Resolver/adapter behaviour whose `execute` stream ends with a terminal
`error` result instead of raising — exactly what
`LlamaCppProcessAdapter.execute` does on a transport failure
(src/imrabo/adapters/llama_cpp/process.py, lines 312–320). -/
def adapterErrorEnv : EngineBehavior :=
  { ensure_available := fun r => .ok ⟨r, true, some (.fileLoc "m1" "w.gguf")⟩
    load_result := fun _ => .ok ()
    execute_stream := fun rq =>
      ([⟨rq.request_id, "error", .err "connection reset"⟩], none) }

/-- Behaviour where every request resolves and loads successfully and the
engine stream yields nothing. -/
def quietEnv : EngineBehavior :=
  { ensure_available := fun r => .ok ⟨r, true, some (.fileLoc "m" "w.gguf")⟩
    load_result := fun _ => .ok ()
    execute_stream := fun _ => ([], none) }

/-- Behaviour whose streaming output is a single non-terminal chunk. -/
def streamingEnv : EngineBehavior :=
  { ensure_available := fun r => .ok ⟨r, true, some (.fileLoc "m" "w.gguf")⟩
    load_result := fun _ => .ok ()
    execute_stream := fun rq =>
      ([⟨rq.request_id, "streaming", .chunk "Hello" false⟩], none) }

/-- Behaviour whose resolver raises during `ensure_available`, before any
engine interaction (mirrors `force_ensure_available_error` of
`MockArtifactResolver` in src/tests/kernel/mocks.py). -/
def resolverErrorEnv : EngineBehavior :=
  { ensure_available := fun _ => .error "Mock ensure_available error"
    load_result := fun _ => .ok ()
    execute_stream := fun _ => ([], none) }

/-- First request against artifact `model:a/variant:v1`. -/
def reqA1 : ExecutionRequest := ⟨"q1", "model:a/variant:v1"⟩

/-- Second request against the same artifact reference. -/
def reqA2 : ExecutionRequest := ⟨"q2", "model:a/variant:v1"⟩

/-- Third request against a different artifact reference. -/
def reqB : ExecutionRequest := ⟨"q3", "model:b/variant:v1"⟩

/-! ## Claim C1 -/

/-- Claim C1 counterexample: when the engine adapter's stream itself ends
with an `error` result (as `LlamaCppProcessAdapter.execute` does on any
transport failure) the kernel still appends its own final `completed`
result, so the request stream contains two terminal results and the
terminal `error` is not the last element. -/
theorem kernel_two_terminals_after_adapter_error :
    ((kernelExecute adapterErrorEnv reqA1 initialKernelState).1.map
        (fun r => r.status)
      = ["resolving", "loading_engine", "executing", "error", "completed"]) ∧
    ((kernelExecute adapterErrorEnv reqA1 initialKernelState).1.countP
        (fun r => isTerminal r) = 2) := by
  decide

/-- A result list of the shape `pre ++ ex :: mid ++ [x]` with only `x`
terminal has exactly one terminal result, in last position. -/
theorem one_terminal_shape (pre mid : List ExecutionResult) (ex x : ExecutionResult)
    (hpre : pre.countP (fun r => isTerminal r) = 0)
    (hex : isTerminal ex = false)
    (hmid : mid.countP (fun r => isTerminal r) = 0)
    (hx : isTerminal x = true) :
    ((pre ++ ex :: mid ++ [x]).countP (fun r => isTerminal r) = 1) ∧
    (∃ r, (pre ++ ex :: mid ++ [x]).getLast? = some r ∧ isTerminal r = true) := by
  refine ⟨?_, x, ?_, hx⟩
  · simp [List.countP_append, List.countP_cons, hpre, hmid, hex, hx]
  · rw [show pre ++ ex :: mid ++ [x] = (pre ++ ex :: mid) ++ [x] by simp]
    exact List.getLast?_concat _

/-- Claim C1 (amended): provided every failure surfaces as a raised
exception — i.e. the adapter stream itself contains no terminal result —
`KernelExecutionService.execute` emits exactly one terminal result and it
is the last element of the stream, regardless of where the failure
occurs. -/
theorem kernelExecute_unique_terminal (env : EngineBehavior)
    (req : ExecutionRequest) (st : KernelState)
    (h : ∀ r ∈ (env.execute_stream req).1, isTerminal r = false) :
    ((kernelExecute env req st).1.countP (fun r => isTerminal r) = 1) ∧
    (∃ r, (kernelExecute env req st).1.getLast? = some r ∧ isTerminal r = true) := by
  have hitems : (env.execute_stream req).1.countP (fun r => isTerminal r) = 0 :=
    List.countP_eq_zero.mpr (by intro a ha; simp [h a ha])
  cases henv : env.ensure_available req.artifact_ref with
  | error e =>
      have := one_terminal_shape []
        [] ⟨req.request_id, "resolving", .msg ("Resolving artifact: " ++ req.artifact_ref)⟩
        (errorResult req.request_id e) rfl rfl rfl rfl
      simpa [kernelExecute, henv] using this
  | ok handle =>
    cases hav : handle.is_available with
    | false =>
        have := one_terminal_shape []
          [] ⟨req.request_id, "resolving", .msg ("Resolving artifact: " ++ req.artifact_ref)⟩
          (errorResult req.request_id ("Artifact not available: " ++ req.artifact_ref))
          rfl rfl rfl rfl
        simpa [kernelExecute, henv, hav] using this
    | true =>
      by_cases hcond :
          (!({ st with current_handle := some handle } : KernelState).is_engine_loaded ||
            (match ({ st with current_handle := some handle } : KernelState).loaded_artifact_ref with
             | some r => handle.ref != r
             | none => true)) = true
      · cases hload : env.load_result handle with
        | error e =>
            have := one_terminal_shape
              [⟨req.request_id, "resolving", .msg ("Resolving artifact: " ++ req.artifact_ref)⟩]
              [] ⟨req.request_id, "loading_engine",
                    .msg ("Loading engine for artifact: " ++ handle.ref)⟩
              (errorResult req.request_id e) rfl rfl rfl rfl
            simpa [kernelExecute, henv, hav, hcond, hload] using this
        | ok u =>
            cases u
            cases hexec : (env.execute_stream req).2 with
            | some e =>
                have := one_terminal_shape
                  [⟨req.request_id, "resolving",
                      .msg ("Resolving artifact: " ++ req.artifact_ref)⟩,
                   ⟨req.request_id, "loading_engine",
                      .msg ("Loading engine for artifact: " ++ handle.ref)⟩]
                  (env.execute_stream req).1
                  ⟨req.request_id, "executing", .msg "Executing request"⟩
                  (errorResult req.request_id e) rfl rfl hitems rfl
                simpa [kernelExecute, runExecution, henv, hav, hcond, hload, hexec] using this
            | none =>
                have := one_terminal_shape
                  [⟨req.request_id, "resolving",
                      .msg ("Resolving artifact: " ++ req.artifact_ref)⟩,
                   ⟨req.request_id, "loading_engine",
                      .msg ("Loading engine for artifact: " ++ handle.ref)⟩]
                  (env.execute_stream req).1
                  ⟨req.request_id, "executing", .msg "Executing request"⟩
                  ⟨req.request_id, "completed", .msg "Execution finished"⟩ rfl rfl hitems rfl
                simpa [kernelExecute, runExecution, henv, hav, hcond, hload, hexec] using this
      · cases hexec : (env.execute_stream req).2 with
        | some e =>
            have := one_terminal_shape
              [⟨req.request_id, "resolving", .msg ("Resolving artifact: " ++ req.artifact_ref)⟩]
              (env.execute_stream req).1
              ⟨req.request_id, "executing", .msg "Executing request"⟩
              (errorResult req.request_id e) rfl rfl hitems rfl
            simpa [kernelExecute, runExecution, henv, hav, hcond, hexec] using this
        | none =>
            have := one_terminal_shape
              [⟨req.request_id, "resolving", .msg ("Resolving artifact: " ++ req.artifact_ref)⟩]
              (env.execute_stream req).1
              ⟨req.request_id, "executing", .msg "Executing request"⟩
              ⟨req.request_id, "completed", .msg "Execution finished"⟩ rfl rfl hitems rfl
            simpa [kernelExecute, runExecution, henv, hav, hcond, hexec] using this

/-- Claim C1 witness: a successful streaming run through an adapter whose
stream carries only non-terminal results has exactly one terminal result,
in last position. -/
theorem kernelExecute_unique_terminal_witness :
    (∀ r ∈ (streamingEnv.execute_stream reqA1).1, isTerminal r = false) ∧
    (((kernelExecute streamingEnv reqA1 initialKernelState).1.countP
        (fun r => isTerminal r) = 1) ∧
     (∃ r, (kernelExecute streamingEnv reqA1 initialKernelState).1.getLast? = some r ∧
        isTerminal r = true)) :=
  ⟨by decide, kernelExecute_unique_terminal streamingEnv reqA1 initialKernelState (by decide)⟩

/-! ## Claim C2 -/

/-- Claim C2 evidence: two consecutive requests with the same
`artifact_ref` indeed trigger exactly one `load` (the reuse half of the
claim holds), but a third request with a different reference triggers a
second `load` with **zero** preceding `unload` calls — the kernel never
unloads the previously loaded engine when switching references,
contradicting the claim and the repository's own test
`test_engine_reloads_for_different_artifact`. -/
theorem kernel_switch_performs_no_unload :
    ((runRequests quietEnv [reqA1, reqA2] initialKernelState).load_calls = 1 ∧
     (runRequests quietEnv [reqA1, reqA2] initialKernelState).unload_calls = 0) ∧
    ((runRequests quietEnv [reqA1, reqA2, reqB] initialKernelState).load_calls = 2 ∧
     (runRequests quietEnv [reqA1, reqA2, reqB] initialKernelState).unload_calls = 0) := by
  decide

/-! ## Claim C3 -/

/-- Claim C3 evidence: when `ensure_available` raises before any engine
interaction, the kernel emits `resolving` then a single `error` result —
but its `except` clause calls `engine_adapter.unload()` unconditionally,
so `unload` is called exactly once even though the engine was never
loaded (`load_calls = 0`), contradicting the claim and the repository's
own test `test_lifecycle_failure_during_artifact_resolution`. -/
theorem kernel_unloads_even_when_never_loaded :
    ((kernelExecute resolverErrorEnv reqA1 initialKernelState).1.map
        (fun r => r.status) = ["resolving", "error"]) ∧
    ((kernelExecute resolverErrorEnv reqA1 initialKernelState).1.getLast?
      = some (errorResult "q1" "Mock ensure_available error")) ∧
    ((kernelExecute resolverErrorEnv reqA1 initialKernelState).2.load_calls = 0) ∧
    ((kernelExecute resolverErrorEnv reqA1 initialKernelState).2.unload_calls = 1) ∧
    ((kernelExecute resolverErrorEnv reqA1 initialKernelState).2.is_engine_loaded = false) := by
  decide

/-! ## Disk lemmas for the resolver proofs -/

/-- Lookup after unlink. -/
theorem dLookup_dErase (d : Disk) (q p : String × String) :
    dLookup (dErase d q) p = if p = q then none else dLookup d p := by
  induction d with
  | nil => simp [dErase, dLookup]
  | cons e d ih =>
    simp only [dErase]
    by_cases he : e.1 = q
    · rw [if_pos he, ih]
      by_cases hp : p = q
      · simp [hp]
      · have hep : ¬e.1 = p := fun h2 => hp (by rw [← h2, he])
        simp [dLookup, hp, hep]
    · rw [if_neg he]
      simp only [dLookup]
      by_cases hep : e.1 = p
      · have hp : ¬p = q := fun h2 => he (by rw [hep, h2])
        simp [hep, hp]
      · simp [hep, ih]

/-- Lookup after write. -/
theorem dLookup_dInsert (d : Disk) (q : String × String) (v : String)
    (p : String × String) :
    dLookup (dInsert d q v) p = if p = q then some v else dLookup d p := by
  by_cases h : p = q
  · simp [dInsert, dLookup, h]
  · have h2 : ¬q = p := fun hq => h (Eq.symm hq)
    simp [dInsert, dLookup, h2, dLookup_dErase, h]

/-- `_download_file` changes the disk in only two ways: the target path
may receive the verified hash (and only when the function reports
success), and the temp path ends up absent; every other path is
untouched. -/
theorem downloadFile_spec (net : NetBehavior) (disk : Disk) (url : String)
    (target : String × String) (expected : String) (p : String × String) :
    dLookup (downloadFile net disk url target expected).2 p = dLookup disk p
    ∨ dLookup (downloadFile net disk url target expected).2 p = none
    ∨ (p = target ∧ (downloadFile net disk url target expected).1 = true ∧
        dLookup (downloadFile net disk url target expected).2 p = some expected) := by
  have htmp : ¬target = (target.1, target.2 ++ ".tmp") := by
    intro hcontra
    have hsnd : target.2 = target.2 ++ ".tmp" := congrArg Prod.snd hcontra
    have hlen := congrArg String.length hsnd
    rw [String.length_append] at hlen
    have h4 : ".tmp".length = 4 := rfl
    omega
  unfold downloadFile
  cases hdl : net.downloadHash url with
  | none =>
      by_cases hp : p = (target.1, target.2 ++ ".tmp")
      · right; left; simp [dLookup_dErase, hp]
      · left; simp [dLookup_dErase, hp]
  | some h =>
      by_cases hne : (h != expected) = true
      · by_cases hp : p = (target.1, target.2 ++ ".tmp")
        · right; left; simp [hne, dLookup_dErase, hp]
        · left; simp [hne, dLookup_dErase, dLookup_dInsert, hp]
      · have heq : h = expected := by simpa using hne
        by_cases hp : p = (target.1, target.2 ++ ".tmp")
        · right; left; simp [hne, dLookup_dErase, hp]
        · by_cases hpt : p = target
          · right; right
            refine ⟨hpt, by simp [hne], ?_⟩
            simp [hne, dLookup_dErase, dLookup_dInsert, hp, hpt, heq, htmp]
          · left; simp [hne, dLookup_dErase, dLookup_dInsert, hp, hpt]

/-- The download loop of `ensure_available` only ever places verified
content: after it runs, every path either kept its previous content, is
absent, or holds the declared hash of one of the declared files at that
file's final path. -/
theorem ensureFiles_disk_spec (net : NetBehavior) (mid : String) :
    ∀ (files : List FileInfo) (disk : Disk) (p : String × String),
    dLookup (ensureFiles net mid files disk).2 p = dLookup disk p
    ∨ dLookup (ensureFiles net mid files disk).2 p = none
    ∨ ∃ f ∈ files, p = (mid, f.filename) ∧
        dLookup (ensureFiles net mid files disk).2 p = some f.sha256 := by
  intro files
  induction files with
  | nil => intro disk p; left; rfl
  | cons f fs ih =>
    intro disk p
    rw [ensureFiles]
    by_cases hvalid : fileValid disk (mid, f.filename) f.sha256 = true
    · rw [if_pos hvalid]
      rcases ih disk p with h1 | h1 | ⟨g, hg, hp, hv⟩
      · left; exact h1
      · right; left; exact h1
      · right; right; exact ⟨g, List.mem_cons_of_mem _ hg, hp, hv⟩
    · rw [if_neg hvalid]
      have hspec := downloadFile_spec net disk f.url (mid, f.filename) f.sha256 p
      cases hok : (downloadFile net disk f.url (mid, f.filename) f.sha256).1 with
      | true =>
          rw [if_pos hok]
          rcases ih (downloadFile net disk f.url (mid, f.filename) f.sha256).2 p with
            h1 | h1 | ⟨g, hg, hp, hv⟩
          · rcases hspec with h2 | h2 | ⟨hp, _, hv⟩
            · left; rw [h1, h2]
            · right; left; rw [h1, h2]
            · right; right
              exact ⟨f, List.mem_cons_self _ _, hp, by rw [h1, hv]⟩
          · right; left; exact h1
          · right; right; exact ⟨g, List.mem_cons_of_mem _ hg, hp, hv⟩
      | false =>
          rw [if_neg (by simp [hok])]
          rcases hspec with h2 | h2 | ⟨_, hcontra, _⟩
          · left; exact h2
          · right; left; exact h2
          · rw [hok] at hcontra; exact absurd hcontra (by simp)

/-- Any error the download loop raises is the `RuntimeError` naming one
of the declared files. -/
theorem ensureFiles_error_shape (net : NetBehavior) (mid : String) :
    ∀ (files : List FileInfo) (disk : Disk) (e : PyErr),
    (ensureFiles net mid files disk).1 = .error e →
    ∃ f ∈ files, e = .runtimeError ("Failed to download and verify " ++ f.filename) := by
  intro files
  induction files with
  | nil => intro disk e h; exact absurd h (by simp [ensureFiles])
  | cons f fs ih =>
    intro disk e h
    rw [ensureFiles] at h
    by_cases hvalid : fileValid disk (mid, f.filename) f.sha256 = true
    · rw [if_pos hvalid] at h
      obtain ⟨g, hg, hv⟩ := ih disk e h
      exact ⟨g, List.mem_cons_of_mem _ hg, hv⟩
    · rw [if_neg hvalid] at h
      cases hok : (downloadFile net disk f.url (mid, f.filename) f.sha256).1 with
      | true =>
          rw [if_pos hok] at h
          obtain ⟨g, hg, hv⟩ := ih _ e h
          exact ⟨g, List.mem_cons_of_mem _ hg, hv⟩
      | false =>
          rw [if_neg (by simp [hok])] at h
          have h2 : (Except.error
              (PyErr.runtimeError ("Failed to download and verify " ++ f.filename))
              : Except PyErr Unit) = Except.error e := h
          refine ⟨f, List.mem_cons_self _ _, ?_⟩
          injection h2 with h3
          exact h3.symm

/-! ## Concrete registries and disks for the resolver claims -/

/-- Registry declaring model `m1`, variant `v1`, with the single file
`weights.bin` (declared sha256 `"H"`) — the literal scenario of the spec. -/
def regBin : Registry :=
  [("m1",
    { id := "m1"
      variants := [⟨"v1", [⟨"weights.bin", "http://host/w", "H"⟩]⟩] })]

/-- The same registry with the single file named `weights.gguf`. -/
def regGguf : Registry :=
  [("m1",
    { id := "m1"
      variants := [⟨"v1", [⟨"weights.gguf", "http://host/w", "H"⟩]⟩] })]

/-- Registry declaring two files for `m1/v1`: a `.gguf` and a tokenizer. -/
def regTwo : Registry :=
  [("m1",
    { id := "m1"
      variants := [⟨"v1",
        [⟨"weights.gguf", "http://host/w", "h1"⟩,
         ⟨"tok.json", "http://host/t", "h2"⟩]⟩] })]

/-- Disk holding a corrupt `weights.bin` (hash `"X"` ≠ declared `"H"`). -/
def diskBin : Disk := [(("m1", "weights.bin"), "X")]

/-- Disk holding a corrupt `weights.gguf` (hash `"X"` ≠ declared `"H"`). -/
def diskGguf : Disk := [(("m1", "weights.gguf"), "X")]

/-- Disk for `regTwo` where `weights.gguf` is present but corrupt
(hash `"bad"` ≠ declared `"h1"`) and `tok.json` is missing entirely. -/
def diskCorrupt : Disk := [(("m1", "weights.gguf"), "bad")]

/-- Network that serves bytes hashing to the declared value `"H"`. -/
def netH : NetBehavior := ⟨fun _ => some "H"⟩

/-- Network that serves bytes hashing to `"Y"` (checksum will mismatch). -/
def netBad : NetBehavior := ⟨fun _ => some "Y"⟩

/-! ## Claim C4 -/

/-- Claim C4 counterexample: `weights.bin` pre-exists at the final path
with hash `"X"` while the registry declares `"H"`, and the download
delivers bytes hashing to `"Y"`.  Verification fails, `ensure_available`
raises `RuntimeError` (there is no `DownloadError` type in the code), the
temp file is gone — but the mismatching pre-existing file is still
present at the final path, so a failed download does leave a file whose
hash differs from the declared value under the final name. -/
theorem failed_download_leaves_preexisting_corrupt_file :
    ((ensureAvailable regBin netBad diskBin "model:m1/variant:v1").1
      = .error (.runtimeError "Failed to download and verify weights.bin")) ∧
    (dLookup (ensureAvailable regBin netBad diskBin "model:m1/variant:v1").2
        ("m1", "weights.bin") = some "X") ∧
    ("X" ≠ "H") ∧
    (dLookup (ensureAvailable regBin netBad diskBin "model:m1/variant:v1").2
        ("m1", "weights.bin.tmp") = none) := by
  decide

/-- Claim C4 (amended): per download the mechanics are as claimed — bytes
go to the sibling temp path, are verified, and only verified content is
atomically renamed into the final path, the temp being deleted otherwise;
consequently after `ensure_available` every path either kept its previous
content, is absent, or holds the declared hash of a declared file, and
any raised error is the `ValueError` for an unresolvable config or the
`RuntimeError` naming a declared file (not a `DownloadError`).  What the
original claim loses is only the pre-existing-file caveat witnessed by
the counterexample. -/
theorem ensureAvailable_places_only_verified_content (reg : Registry)
    (net : NetBehavior) (disk : Disk) (ref : String) (p : String × String) :
    (dLookup (ensureAvailable reg net disk ref).2 p = dLookup disk p
     ∨ dLookup (ensureAvailable reg net disk ref).2 p = none
     ∨ ∃ cfg f, getModelConfig reg ref = some cfg ∧ f ∈ cfg.files ∧
         p = (cfg.model_id, f.filename) ∧
         dLookup (ensureAvailable reg net disk ref).2 p = some f.sha256) ∧
    (∀ e, (ensureAvailable reg net disk ref).1 = .error e →
       e = .valueError ("Could not resolve config for artifact: " ++ ref)
       ∨ ∃ cfg f, getModelConfig reg ref = some cfg ∧ f ∈ cfg.files ∧
           e = .runtimeError ("Failed to download and verify " ++ f.filename)) := by
  unfold ensureAvailable
  by_cases hav : (fsResolve reg disk ref).is_available = true
  · rw [if_pos hav]
    exact ⟨Or.inl rfl, fun e h => absurd h (by simp)⟩
  · rw [if_neg hav]
    cases hcfg : getModelConfig reg ref with
    | none =>
        refine ⟨Or.inl rfl, fun e h => Or.inl ?_⟩
        have h2 : (Except.error
            (PyErr.valueError ("Could not resolve config for artifact: " ++ ref))
            : Except PyErr ArtifactHandle) = Except.error e := h
        injection h2 with h3
        exact h3.symm
    | some cfg =>
      have hdisk :
          (dLookup (ensureFiles net cfg.model_id cfg.files disk).2 p = dLookup disk p
           ∨ dLookup (ensureFiles net cfg.model_id cfg.files disk).2 p = none
           ∨ ∃ cfg1 f, some cfg = some cfg1 ∧ f ∈ cfg1.files ∧
               p = (cfg1.model_id, f.filename) ∧
               dLookup (ensureFiles net cfg.model_id cfg.files disk).2 p
                 = some f.sha256) := by
        rcases ensureFiles_disk_spec net cfg.model_id cfg.files disk p with
          h1 | h1 | ⟨f, hf, hp, hv⟩
        · left; exact h1
        · right; left; exact h1
        · right; right; exact ⟨cfg, f, rfl, hf, hp, hv⟩
      cases hfin : (ensureFiles net cfg.model_id cfg.files disk).1 with
      | error e0 =>
          constructor
          · simpa only [hfin] using hdisk
          · intro e h
            right
            have he : e0 = e := by
              have h2 : (Except.error e0 : Except PyErr ArtifactHandle)
                  = Except.error e := by
                simpa only [hfin] using h
              injection h2
            obtain ⟨f, hf, hv⟩ :=
              ensureFiles_error_shape net cfg.model_id cfg.files disk e0 hfin
            exact ⟨cfg, f, rfl, hf, he ▸ hv⟩
      | ok u =>
          cases u
          constructor
          · simpa only [hfin] using hdisk
          · intro e h
            exact absurd h (by simp only [hfin]; simp)

/-- Claim C4 witness: the amended theorem applied at the counterexample
configuration — the failing download raises the `RuntimeError` naming
`weights.bin`, and the final path keeps its previous (mismatching)
content. -/
theorem ensureAvailable_places_only_verified_content_witness :
    ((ensureAvailable regBin netBad diskBin "model:m1/variant:v1").1
      = .error (.runtimeError "Failed to download and verify weights.bin")) ∧
    ((.runtimeError "Failed to download and verify weights.bin" : PyErr)
        = .valueError ("Could not resolve config for artifact: " ++ "model:m1/variant:v1")
     ∨ ∃ cfg f, getModelConfig regBin "model:m1/variant:v1" = some cfg ∧ f ∈ cfg.files ∧
         (.runtimeError "Failed to download and verify weights.bin" : PyErr)
           = .runtimeError ("Failed to download and verify " ++ f.filename)) :=
  ⟨by decide,
   (ensureAvailable_places_only_verified_content regBin netBad diskBin
      "model:m1/variant:v1" ("m1", "weights.bin")).2 _ (by decide)⟩

/-! ## Claim C6 -/

/-- Claim C6 counterexample: `resolve` reports `is_available = true` for
an artifact whose first declared `.gguf` file is present but whose
on-disk hash (`"bad"`) differs from the declared value (`"h1"`), and
whose second declared file is missing entirely — `resolve` performs no
hash check and ignores every non-primary file. -/
theorem resolve_reports_available_despite_corrupt_and_missing_files :
    ((fsResolve regTwo diskCorrupt "model:m1/variant:v1").is_available = true) ∧
    (dLookup diskCorrupt ("m1", "weights.gguf") = some "bad") ∧
    ("bad" ≠ "h1") ∧
    (dLookup diskCorrupt ("m1", "tok.json") = none) := by
  decide

/-- Claim C6 (amended): `resolve` is a pure local lookup (it takes no
network behaviour and returns the disk unchanged), and it reports
`is_available = true` exactly when the reference resolves to a
configuration, some declared file ends in `".gguf"`, and the first such
file exists on disk — existence only: neither the hash of that file nor
the presence of any other declared file is checked. -/
theorem fsResolve_available_iff (reg : Registry) (disk : Disk) (ref : String) :
    (fsResolve reg disk ref).is_available = true ↔
    ∃ cfg fn, getModelConfig reg ref = some cfg ∧ firstGguf cfg.files = some fn ∧
      (dLookup disk (cfg.model_id, fn)).isSome = true := by
  unfold fsResolve
  cases hcfg : getModelConfig reg ref with
  | none => simp [hcfg]
  | some cfg =>
    cases hg : firstGguf cfg.files with
    | none => simp [hg]
    | some fn =>
      cases hd : (dLookup disk (cfg.model_id, fn)).isSome with
      | false => simp [hg, hd]
      | true => simp [hg, hd]

/-! ## Claim C7 -/

/-- Claim C7 evidence, both halves of the divergence.  (a) The literal
scenario: with the single declared file `weights.bin` pre-existing
corrupt, `ensure_available` does re-download and verify it (the final
disk holds the declared hash), but the returned handle has
`available = false` and `location` = the model *directory* — never a path
ending in `weights.bin`, because the "primary" is hard-coded to the first
`.gguf` file.  (b) The `.gguf` twin: the corrupt pre-existing file makes
`resolve` report available immediately, so `ensure_available` returns
`available = true` pointing at the still-corrupt file without any
re-download — contradicting the claim and the repository's own test
`test_ensure_available_corrupted_local_file_re_downloads`. -/
theorem ensureAvailable_corrupt_scenario_divergence :
    (ensureAvailable regBin netH diskBin "model:m1/variant:v1"
      = (.ok ⟨"model:m1/variant:v1", false, some (.dirLoc "m1")⟩,
         [(("m1", "weights.bin"), "H")])) ∧
    (ensureAvailable regGguf netH diskGguf "model:m1/variant:v1"
      = (.ok ⟨"model:m1/variant:v1", true, some (.fileLoc "m1" "weights.gguf")⟩,
         diskGguf)) ∧
    (dLookup diskGguf ("m1", "weights.gguf") = some "X") ∧
    ("X" ≠ "H") := by
  decide

/-! ## Claim C5 -/

/-- The spec scenario: snapshots `"Hel"`, `"Hello"`, `"Hello world"`,
followed by a record carrying the stop flag. -/
def demoRecords : List SnapshotRecord :=
  [⟨"Hel".data, false⟩, ⟨"Hello".data, false⟩, ⟨"Hello world".data, false⟩,
   ⟨"Hello world".data, true⟩]

/-- `run_prompt` never looks past the first stopped record. -/
theorem processRecords_stop_trunc (rs : List SnapshotRecord) :
    ∀ prev, processRecords (takeUntilStop rs) prev = processRecords rs prev := by
  induction rs with
  | nil => intro prev; rfl
  | cons r rs ih =>
    intro prev
    cases hstop : r.stop with
    | true => simp [takeUntilStop, processRecords, hstop]
    | false => simp [takeUntilStop, processRecords, hstop, ih]

/-- A true `List.isPrefixOf` yields the extension witness. -/
theorem isPrefixOf_exists_append (l1 : List Char) :
    ∀ l2, l1.isPrefixOf l2 = true → ∃ t, l1 ++ t = l2 := by
  induction l1 with
  | nil => intro l2 _; exact ⟨l2, rfl⟩
  | cons a as ih =>
    intro l2 h
    cases l2 with
    | nil => exact absurd h (by simp [List.isPrefixOf])
    | cons b bs =>
      rw [List.isPrefixOf, Bool.and_eq_true, beq_iff_eq] at h
      obtain ⟨hab, htail⟩ := h
      obtain ⟨t, ht⟩ := ih bs htail
      exact ⟨t, by rw [hab, List.cons_append, ht]⟩

/-- `finalSnapshot` steps over a non-stopped head record. -/
theorem finalSnapshot_cons (prev : List Char) (r : SnapshotRecord)
    (rs : List SnapshotRecord) (hstop : r.stop = false) :
    finalSnapshot prev (r :: rs) = finalSnapshot r.content rs := by
  cases htail : takeUntilStop rs with
  | nil => simp [finalSnapshot, takeUntilStop, hstop, htail]
  | cons a l =>
    simp only [finalSnapshot, takeUntilStop, hstop, htail, Bool.false_eq_true, if_false,
      List.getLast?_cons_cons]
    cases h2 : (a :: l).getLast? with
    | none => exact absurd h2 (by simp)
    | some x => rfl

/-- Core delta invariant: over a monotone snapshot sequence, the text
seen so far plus the concatenation of all emitted deltas is exactly the
final snapshot. -/
theorem processRecords_concat (rs : List SnapshotRecord) :
    ∀ prev, isMonotoneFrom prev rs = true →
    prev ++ (processRecords rs prev).flatten = finalSnapshot prev rs := by
  induction rs with
  | nil => intro prev _; simp [processRecords, finalSnapshot, takeUntilStop]
  | cons r rs ih =>
    intro prev h
    rw [isMonotoneFrom, Bool.and_eq_true] at h
    obtain ⟨hpre, hrest⟩ := h
    obtain ⟨t, ht⟩ := isPrefixOf_exists_append prev r.content hpre
    have hdrop : r.content.drop prev.length = t := by rw [← ht, List.drop_left]
    have hfill : ∀ em : List (List Char),
        (em = if t ≠ [] then [t] else []) → prev ++ em.flatten = r.content := by
      intro em hem
      by_cases hT : t = []
      · rw [hem, if_neg (by simp [hT]), List.flatten_nil, List.append_nil, ← ht, hT,
          List.append_nil]
      · rw [hem, if_pos hT]; simpa using ht
    cases hstop : r.stop with
    | true =>
        rw [processRecords]
        simp only [hpre, if_pos, hdrop, hstop, if_true]
        rw [hfill _ rfl]
        simp [finalSnapshot, takeUntilStop, hstop]
    | false =>
        rw [hstop, Bool.false_or] at hrest
        rw [processRecords]
        simp only [hpre, if_pos, hdrop, hstop, if_false, Bool.false_eq_true]
        have hlast : (if t ≠ [] then r.content else prev) = r.content := by
          by_cases hT : t = []
          · rw [if_neg (by simp [hT]), ← ht, hT, List.append_nil]
          · rw [if_pos hT]
        rw [hlast, List.flatten_append, ← List.append_assoc, hfill _ rfl,
          ih r.content hrest, finalSnapshot_cons prev r rs hstop]

/-- Claim C5: over any monotone (prefix-extension) sequence of cumulative
snapshots, the concatenation of the deltas `run_prompt` emits equals the
final snapshot (each newly appended suffix appears exactly once, nothing
is re-emitted), the stream consumes nothing past the first stop-flagged
record, and the spec scenario `"Hel"`, `"Hello"`, `"Hello world"`, stop
yields exactly the deltas `"Hel"`, `"lo"`, `" world"`. -/
theorem run_prompt_delta_correctness :
    (∀ rs : List SnapshotRecord, isMonotoneFrom [] rs = true →
       (processRecords rs []).flatten = finalSnapshot [] rs ∧
       processRecords rs [] = processRecords (takeUntilStop rs) []) ∧
    (processRecords demoRecords [] = ["Hel".data, "lo".data, " world".data]) := by
  constructor
  · intro rs h
    refine ⟨?_, (processRecords_stop_trunc rs []).symm⟩
    simpa using processRecords_concat rs [] h
  · decide

/-- Claim C5 witness: the spec scenario is a monotone snapshot sequence,
and the theorem instantiated on it gives deltas that concatenate to
`"Hello world"` while stopping at the stop-flagged record. -/
theorem run_prompt_delta_correctness_witness :
    (isMonotoneFrom [] demoRecords = true) ∧
    ((processRecords demoRecords []).flatten = finalSnapshot [] demoRecords ∧
     processRecords demoRecords [] = processRecords (takeUntilStop demoRecords) []) :=
  ⟨by decide, run_prompt_delta_correctness.1 demoRecords (by decide)⟩

/-! ## Claim C8 -/

/-- A retried attempt (caught exception or non-ok 200 answer) just moves
the loop to the next attempt. -/
theorem waitLoop_step_retry (env : ReadyEnv) (fuel i : Nat)
    (h1 : env.health i ≠ .healthOk) (h2 : env.health i ≠ .uncaught) :
    waitLoop env (fuel + 1) i = waitLoop env fuel (i + 1) := by
  cases hh : env.health i with
  | healthOk => exact absurd hh h1
  | uncaught => exact absurd hh h2
  | procDead => simp only [waitLoop, hh]
  | connErr => simp only [waitLoop, hh]
  | healthNotOk => simp only [waitLoop, hh]

/-- `waitLoop` exhausts its budget exactly when every attempt in the
window ends in a caught failure or a non-ok answer (neither healthy nor
an escaping exception). -/
theorem waitLoop_eq_exhausted_iff (env : ReadyEnv) :
    ∀ (fuel i : Nat), waitLoop env fuel i = .exhausted ↔
      ∀ j, j < fuel →
        env.health (i + j) ≠ .healthOk ∧ env.health (i + j) ≠ .uncaught := by
  intro fuel
  induction fuel with
  | zero => intro i; simp [waitLoop]
  | succ fuel ih =>
    intro i
    by_cases hok : env.health i = .healthOk
    · constructor
      · intro hc
        simp only [waitLoop, hok] at hc
        exact WaitOutcome.noConfusion hc
      · intro hall
        exact absurd (by simpa using hok) (hall 0 (by omega)).1
    · by_cases hun : env.health i = .uncaught
      · constructor
        · intro hc
          simp only [waitLoop, hun] at hc
          exact WaitOutcome.noConfusion hc
        · intro hall
          exact absurd hun (by simpa using (hall 0 (by omega)).2)
      · rw [waitLoop_step_retry env fuel i hok hun, ih (i + 1)]
        constructor
        · intro hall j hj
          cases j with
          | zero => simpa using ⟨hok, hun⟩
          | succ j =>
              have := hall j (by omega)
              rwa [show i + 1 + j = i + (j + 1) by omega] at this
        · intro hall j hj
          have := hall (j + 1) (by omega)
          rwa [show i + (j + 1) = i + 1 + j by omega] at this

/-- `waitLoop` reaches readiness only at an attempt inside its budget
window whose health probe reported `ok`. -/
theorem waitLoop_eq_ready (env : ReadyEnv) :
    ∀ (fuel i k : Nat), waitLoop env fuel i = .ready k →
      i ≤ k ∧ k < i + fuel ∧ env.health k = .healthOk := by
  intro fuel
  induction fuel with
  | zero => intro i k h; exact WaitOutcome.noConfusion h
  | succ fuel ih =>
    intro i k h
    by_cases hok : env.health i = .healthOk
    · simp only [waitLoop, hok] at h
      have hik : i = k := by injection h
      exact ⟨by omega, by omega, hik ▸ hok⟩
    · by_cases hun : env.health i = .uncaught
      · simp only [waitLoop, hun] at h
        exact WaitOutcome.noConfusion h
      · rw [waitLoop_step_retry env fuel i hok hun] at h
        obtain ⟨h1, h2, h3⟩ := ih (i + 1) k h
        exact ⟨by omega, by omega, h3⟩

/-- `waitLoop` escapes only at an attempt inside its budget window whose
probe body raised an exception the `except` clause does not catch. -/
theorem waitLoop_eq_escaped (env : ReadyEnv) :
    ∀ (fuel i k : Nat), waitLoop env fuel i = .escaped k →
      i ≤ k ∧ k < i + fuel ∧ env.health k = .uncaught := by
  intro fuel
  induction fuel with
  | zero => intro i k h; exact WaitOutcome.noConfusion h
  | succ fuel ih =>
    intro i k h
    by_cases hok : env.health i = .healthOk
    · simp only [waitLoop, hok] at h
      exact WaitOutcome.noConfusion h
    · by_cases hun : env.health i = .uncaught
      · simp only [waitLoop, hun] at h
        have hik : i = k := by injection h
        exact ⟨by omega, by omega, hik ▸ hun⟩
      · rw [waitLoop_step_retry env fuel i hok hun] at h
        obtain ⟨h1, h2, h3⟩ := ih (i + 1) k h
        exact ⟨by omega, by omega, h3⟩

/-- Claim C8 counterexample: (a) an environment whose health endpoint
reports `ok` but whose engine cannot serve a single inference request
(`canServe` is everywhere false) is declared ready on the first attempt —
`_wait_for_ready` consults only the health endpoint, never an inference
probe; (b) when the budget is exhausted the error raised is a plain
`RuntimeError`, not an `EngineNotReadyError` (no such type exists in the
code); and (c) an uncaught exception on the first attempt (e.g. a
requests `ReadTimeout`, which `except (ConnectionError, HTTPError,
RuntimeError)` does not catch) escapes the loop with no `unload()`
teardown of the just-spawned process. -/
theorem readiness_ignores_inference_probe :
    (waitForReady ⟨fun _ => .healthOk, fun _ => false⟩ = (.ready 0, false, true)) ∧
    (waitForReady ⟨fun _ => .connErr, fun _ => true⟩
      = (.notReady (.runtimeError "llama-server failed to become ready."), true, false)) ∧
    (waitForReady ⟨fun _ => .uncaught, fun _ => true⟩ = (.escaped 0, false, false)) := by
  refine ⟨rfl, rfl, rfl⟩

/-- Claim C8 (amended): readiness is decided by health probes alone,
bounded by 30 attempts.  If every attempt below 30 ends in a caught
failure or a non-ok answer, the spawned process is torn down (`unload()`
is called) and the plain `RuntimeError` is raised with `server_ready`
still false; whenever readiness is reached, it is at some attempt below
30 whose health probe reported `ok`, with no teardown and `server_ready`
set; and whenever an attempt raises an exception the `except` clause
does not catch, that exception escapes with **no** teardown and
`server_ready` still false — the exhaustion-teardown guarantee holds
only on runs free of uncaught exceptions. -/
theorem waitForReady_bounded (env : ReadyEnv) :
    ((∀ i, i < 30 →
        env.health i ≠ .healthOk ∧ env.health i ≠ .uncaught) →
       waitForReady env
         = (.notReady (.runtimeError "llama-server failed to become ready."),
            true, false)) ∧
    (∀ i, (waitForReady env).1 = .ready i →
       i < 30 ∧ env.health i = .healthOk ∧ (waitForReady env).2 = (false, true)) ∧
    (∀ i, (waitForReady env).1 = .escaped i →
       i < 30 ∧ env.health i = .uncaught ∧ (waitForReady env).2 = (false, false)) := by
  refine ⟨?_, ?_, ?_⟩
  · intro hall
    have hex : waitLoop env 30 0 = .exhausted :=
      (waitLoop_eq_exhausted_iff env 30 0).mpr (fun j hj => by simpa using hall j hj)
    rw [waitForReady, hex]
  · intro i hi
    cases hw : waitLoop env 30 0 with
    | ready k =>
        obtain ⟨_, h2, h3⟩ := waitLoop_eq_ready env 30 0 k hw
        rw [waitForReady, hw] at hi ⊢
        have hik : k = i := by injection hi
        subst hik
        exact ⟨by omega, h3, rfl⟩
    | escaped k =>
        rw [waitForReady, hw] at hi
        exact absurd hi (by simp)
    | exhausted =>
        rw [waitForReady, hw] at hi
        exact absurd hi (by simp)
  · intro i hi
    cases hw : waitLoop env 30 0 with
    | ready k =>
        rw [waitForReady, hw] at hi
        exact absurd hi (by simp)
    | escaped k =>
        obtain ⟨_, h2, h3⟩ := waitLoop_eq_escaped env 30 0 k hw
        rw [waitForReady, hw] at hi ⊢
        have hik : k = i := by injection hi
        subst hik
        exact ⟨by omega, h3, rfl⟩
    | exhausted =>
        rw [waitForReady, hw] at hi
        exact absurd hi (by simp)

/-- Claim C8 witness: an engine whose health endpoint never answers
(every attempt a caught connection error) exhausts the 30-attempt
budget, is torn down, and surfaces the `RuntimeError`. -/
theorem waitForReady_bounded_witness :
    (∀ i, i < 30 →
        (⟨fun _ => .connErr, fun _ => true⟩ : ReadyEnv).health i ≠ .healthOk ∧
        (⟨fun _ => .connErr, fun _ => true⟩ : ReadyEnv).health i ≠ .uncaught) ∧
    (waitForReady ⟨fun _ => .connErr, fun _ => true⟩
      = (.notReady (.runtimeError "llama-server failed to become ready."),
         true, false)) :=
  ⟨fun _ _ => ⟨fun hc => ProbeOutcome.noConfusion hc,
               fun hc => ProbeOutcome.noConfusion hc⟩,
   (waitForReady_bounded ⟨fun _ => .connErr, fun _ => true⟩).1
     (fun _ _ => ⟨fun hc => ProbeOutcome.noConfusion hc,
                  fun hc => ProbeOutcome.noConfusion hc⟩)⟩

/-! ## Claims C9 and C10 -/

/-- A stop environment whose signal operations behave normally: every
`os.kill` either succeeds or raises `ProcessLookupError`, never an
unexpected exception. -/
def normalStopEnv (env : StopEnv) : Prop :=
  env.sigterm ≠ .unexpected ∧ env.aliveCheck ≠ .unexpected ∧ env.sigkill ≠ .unexpected

instance (env : StopEnv) : Decidable (normalStopEnv env) := by
  unfold normalStopEnv
  infer_instance

/-- Under a normal environment the signalling fallback reports success
and (via its `finally`) leaves no PID record. -/
theorem signalSequence_normal (env : StopEnv) (fs : DaemonFS)
    (h : normalStopEnv env) :
    signalSequence env fs = (true, { pidFile := none }) := by
  obtain ⟨ht, ha, hk⟩ := h
  cases hterm : env.sigterm with
  | unexpected => exact absurd hterm ht
  | notFound => simp [signalSequence, hterm, removePidFile]
  | ok =>
    cases halive : env.aliveCheck with
    | unexpected => exact absurd halive ha
    | notFound => simp [signalSequence, hterm, halive, removePidFile]
    | ok =>
      cases hkill : env.sigkill with
      | unexpected => exact absurd hkill hk
      | notFound => simp [signalSequence, hterm, halive, hkill, removePidFile]
      | ok => simp [signalSequence, hterm, halive, hkill, removePidFile]

/-- One normal `stop_runtime` call reports success and leaves no PID
record, provided the record does not parse to the integer `0`. -/
theorem stopRuntime_normal (env : StopEnv) (fs : DaemonFS)
    (h : normalStopEnv env)
    (hz : fs.pidFile.bind (fun c => pyInt c.data) ≠ some 0) :
    (stopRuntime env fs).1 = true ∧ (stopRuntime env fs).2.pidFile = none := by
  by_cases hs : env.shutdownOk = true
  · simp [stopRuntime, hs, removePidFile]
  · have hs2 : env.shutdownOk = false := by simpa using hs
    cases hfile : fs.pidFile with
    | none => simp [stopRuntime, hs2, getSavedPid, hfile]
    | some content =>
      cases hint : pyInt content.data with
      | none => simp [stopRuntime, hs2, getSavedPid, hfile, hint]
      | some n =>
        have hn0 : ¬n = 0 := by
          intro h0
          exact hz (by simp [hfile, hint, h0])
        have hbeq : (n == 0) = false := by simpa using hn0
        simp [stopRuntime, hs2, getSavedPid, hfile, hint, hbeq,
          signalSequence_normal env _ h]

/-- Claim C9 counterexample: with the cooperative shutdown failing and a
PID record containing `"0"`, `stop_runtime` returns success twice in a
row — but the record parses to `0`, which the falsy `if not pid:` check
treats as "not running" without deleting the file, so a PID record is
still on disk after both calls. -/
theorem stop_twice_leaves_zero_pid_record :
    ((stopRuntime ⟨false, .ok, .ok, .ok⟩ ⟨some "0"⟩).1 = true) ∧
    ((stopRuntime ⟨false, .ok, .ok, .ok⟩
        (stopRuntime ⟨false, .ok, .ok, .ok⟩ ⟨some "0"⟩).2).1 = true) ∧
    ((stopRuntime ⟨false, .ok, .ok, .ok⟩
        (stopRuntime ⟨false, .ok, .ok, .ok⟩ ⟨some "0"⟩).2).2.pidFile = some "0") := by
  decide

/-- Claim C9 (amended): provided signals fail only with
`ProcessLookupError` (no unexpected OS errors) and the PID record does
not parse to the integer `0`, two consecutive `stop_runtime` calls both
return success and leave no PID record on disk; a missing or unparsable
record is treated as already stopped, and a corrupted record is deleted
by the read rather than signalled. -/
theorem stop_runtime_idempotent (env1 env2 : StopEnv) (fs : DaemonFS)
    (h1 : normalStopEnv env1) (h2 : normalStopEnv env2)
    (hz : fs.pidFile.bind (fun c => pyInt c.data) ≠ some 0) :
    ((stopRuntime env1 fs).1 = true) ∧
    ((stopRuntime env1 fs).2.pidFile = none) ∧
    ((stopRuntime env2 (stopRuntime env1 fs).2).1 = true) ∧
    ((stopRuntime env2 (stopRuntime env1 fs).2).2.pidFile = none) := by
  obtain ⟨hb1, hp1⟩ := stopRuntime_normal env1 fs h1 hz
  obtain ⟨hb2, hp2⟩ := stopRuntime_normal env2 (stopRuntime env1 fs).2 h2
    (by rw [hp1]; simp)
  exact ⟨hb1, hp1, hb2, hp2⟩

/-- Claim C9 witness: the idempotence theorem applied to a daemon whose
API is down and whose PID record holds `42`, with normally-behaving
signals. -/
theorem stop_runtime_idempotent_witness :
    (normalStopEnv ⟨false, .notFound, .ok, .ok⟩ ∧
     (⟨some "42"⟩ : DaemonFS).pidFile.bind (fun c => pyInt c.data) ≠ some 0) ∧
    (((stopRuntime ⟨false, .notFound, .ok, .ok⟩ ⟨some "42"⟩).1 = true) ∧
     ((stopRuntime ⟨false, .notFound, .ok, .ok⟩ ⟨some "42"⟩).2.pidFile = none) ∧
     ((stopRuntime ⟨false, .notFound, .ok, .ok⟩
        (stopRuntime ⟨false, .notFound, .ok, .ok⟩ ⟨some "42"⟩).2).1 = true) ∧
     ((stopRuntime ⟨false, .notFound, .ok, .ok⟩
        (stopRuntime ⟨false, .notFound, .ok, .ok⟩ ⟨some "42"⟩).2).2.pidFile = none)) :=
  ⟨⟨by decide, by decide⟩,
   stop_runtime_idempotent ⟨false, .notFound, .ok, .ok⟩ ⟨false, .notFound, .ok, .ok⟩
     ⟨some "42"⟩ (by decide) (by decide) (by decide)⟩

/-- Claim C10: whenever `stop_runtime` takes the PID-signalling fallback
(the API shutdown failed and a nonzero PID was read from the record), the
PID record is gone when the call returns, whatever the three `os.kill`
calls do — including the unexpected-error path that makes the call return
failure. -/
theorem stop_fallback_always_removes_pid (env : StopEnv) (fs : DaemonFS)
    (n : Int) (hs : env.shutdownOk = false)
    (hp : (getSavedPid fs).1 = some n) (hn : n ≠ 0) :
    (stopRuntime env fs).2.pidFile = none := by
  have hbeq : (n == 0) = false := by simpa using hn
  rw [stopRuntime, hs]
  cases hsp : getSavedPid fs with
  | mk v fs1 =>
    rw [hsp] at hp
    simp only at hp
    subst hp
    simp only [Bool.false_eq_true, if_false, hbeq]
    rfl

/-- Claim C10 witness: SIGTERM raises an unexpected error, so the call
returns failure — and the PID record is deleted all the same by the
`finally` clause. -/
theorem stop_fallback_always_removes_pid_witness :
    ((⟨false, .unexpected, .ok, .ok⟩ : StopEnv).shutdownOk = false ∧
     (getSavedPid ⟨some "42"⟩).1 = some 42 ∧ (42 : Int) ≠ 0 ∧
     (stopRuntime ⟨false, .unexpected, .ok, .ok⟩ ⟨some "42"⟩).1 = false) ∧
    ((stopRuntime ⟨false, .unexpected, .ok, .ok⟩ ⟨some "42"⟩).2.pidFile = none) :=
  ⟨⟨by decide, by decide, by decide, by decide⟩,
   stop_fallback_always_removes_pid ⟨false, .unexpected, .ok, .ok⟩ ⟨some "42"⟩ 42
     (by decide) (by decide) (by decide)⟩

end Imrabo
